import Mathlib

/-!
Shallow embedding of the comment/reaction aggregation and classification
engine of the audit-review-manager repository (the GraphQL revision of
`src/main.js`).  Comment bodies are modelled as lists of characters;
per-participant glyph cells and participation flags are modelled as
functions from participant handles.
-/

set_option maxHeartbeats 1000000
set_option maxRecDepth 4000

namespace AuditReview

/-- One emoji reaction on a review comment: a raw reaction-kind string and
the handle of the reacting user (`reaction.content`, `reaction.user.login`). -/
structure Reaction where
  content : String
  user : String
deriving DecidableEq, Repr

/-- The representative comment of a review thread: body text, permalink,
author handle, and its ordered list of reactions. -/
structure ThreadComment where
  body : List Char
  url : String
  author : String
  reactions : List Reaction
deriving DecidableEq, Repr

/-- A review thread: a resolution flag and its comments
(the GraphQL query fetches the first comment of each thread). -/
structure Thread where
  isResolved : Bool
  comments : List ThreadComment
deriving DecidableEq, Repr

/-- The fixed reaction-kind table of `getEmoji` (GraphQL revision):
uppercase kind identifier to display glyph. -/
def emojiTable : List (String × String) :=
  [("THUMBS_UP", "👍"), ("THUMBS_DOWN", "👎"), ("LAUGH", "😄"),
   ("HOORAY", "🎉"), ("CONFUSED", "😕"), ("HEART", "❤️"),
   ("ROCKET", "🚀"), ("EYES", "👀")]

/-- Model of JavaScript `content.toUpperCase()` (ASCII case mapping, which
is all the table keys need). -/
def jsToUpperCase (s : String) : String :=
  String.mk (s.data.map Char.toUpper)

/-- `getEmoji(content)`: look the uppercased kind up in the table and fall
back to the raw input (`emojiMap[content.toUpperCase()] || content`). -/
def getEmoji (content : String) : String :=
  ((emojiTable.lookup (jsToUpperCase content)).getD content)

/-- The ellipsis marker appended by `truncateText`. -/
def ellipsisMarker : List Char := ['.', '.', '.']

/-- `truncateText(text, charLimit)`: return the text unchanged when its
length is within the limit, otherwise the first `charLimit` characters
followed by `"..."`. -/
def truncateText (text : List Char) (charLimit : Nat) : List Char :=
  if text.length ≤ charLimit then text else text.take charLimit ++ ellipsisMarker

/-- A reaction counts as a vote when it normalizes to 👍 or 👎 — these are
the only kinds that write a glyph cell and mark participation. -/
def isVote (r : Reaction) : Bool :=
  getEmoji r.content == "👍" || getEmoji r.content == "👎"

/-- A `console.warn("Incorrect emoji", emoji, user, commentUrl)` record. -/
structure Warn where
  emoji : String
  user : String
  url : String
deriving DecidableEq, Repr

/-- `commenters.includes(u) || commenters.push(u)`: insertion-ordered
deduplicating registration of a participant handle. -/
def pushCommenter (l : List String) (u : String) : List String :=
  if u ∈ l then l else l ++ [u]

/-- Mutable state of the reaction-processing loop over one comment:
the shared `commenters` list, the per-comment counters, the per-participant
glyph cells (`row[user]`), the participation set (`row.reactions`), the
`hasRocket` flag, and the warnings emitted so far. -/
structure CState where
  commenters : List String
  thumbsUpCount : Nat
  thumbsDownCount : Nat
  cells : String → Option String
  reacted : String → Bool
  hasRocket : Bool
  warnings : List Warn

/-- One iteration of the `reactions.forEach` loop in
`getPRReviewCommentsWithReactions`: register the reactor, then dispatch on
the normalized glyph (🚀 sets `hasRocket`; 👍/👎 write the cell, bump the
count and mark participation; 👀 does nothing else; anything else only
warns). -/
def reactionStep (url : String) (s : CState) (r : Reaction) : CState :=
  if getEmoji r.content = "🚀" then
    { s with commenters := pushCommenter s.commenters r.user, hasRocket := true }
  else if getEmoji r.content = "👍" then
    { s with commenters := pushCommenter s.commenters r.user,
             cells := fun u => if u = r.user then some "👍" else s.cells u,
             thumbsUpCount := s.thumbsUpCount + 1,
             reacted := fun u => if u = r.user then true else s.reacted u }
  else if getEmoji r.content = "👎" then
    { s with commenters := pushCommenter s.commenters r.user,
             cells := fun u => if u = r.user then some "👎" else s.cells u,
             thumbsDownCount := s.thumbsDownCount + 1,
             reacted := fun u => if u = r.user then true else s.reacted u }
  else if getEmoji r.content = "👀" then
    { s with commenters := pushCommenter s.commenters r.user }
  else
    { s with commenters := pushCommenter s.commenters r.user,
             warnings := s.warnings ++ [⟨getEmoji r.content, r.user, url⟩] }

/-- The state of a comment's row before any reaction is processed:
zero counters, the author's cell initialized to `"Proposer"`, an empty
participation set, `hasRocket = false`, no warnings. -/
def initState (cs : List String) (author : String) : CState :=
  { commenters := cs
    thumbsUpCount := 0
    thumbsDownCount := 0
    cells := fun u => if u = author then some "Proposer" else none
    reacted := fun _ => false
    hasRocket := false
    warnings := [] }

/-- Process one comment's reactions: register the author, initialize the
row state and fold the reaction loop over the reaction list. -/
def processCommentCore (cs : List String) (c : ThreadComment) : CState :=
  c.reactions.foldl (reactionStep c.url)
    (initState (pushCommenter cs c.author) c.author)

/-- One classified comment row (`row` in the source): truncated display
text, permalink, proposer, counters, glyph cells, participation set, and
the `Reported` status cell (`some "✅"` / `some "❌"` for resolved threads,
`none` for unresolved ones). -/
structure Row where
  commentText : List Char
  commentUrl : String
  proposer : String
  thumbsUpCount : Nat
  thumbsDownCount : Nat
  cells : String → Option String
  reacted : String → Bool
  reported : Option String

/-- Assemble the row from a processed comment state, setting the
`Reported` cell from `isResolved` and `hasRocket`. -/
def mkRow (c : ThreadComment) (isResolved : Bool) (st : CState) : Row :=
  { commentText := truncateText c.body 300
    commentUrl := c.url
    proposer := c.author
    thumbsUpCount := st.thumbsUpCount
    thumbsDownCount := st.thumbsDownCount
    cells := st.cells
    reacted := st.reacted
    reported := if isResolved then some (if st.hasRocket then "✅" else "❌") else none }

/-- The aggregate resolution counters (`stats.reported`,
`stats.nonReported`, `stats.pending`). -/
structure Stats where
  reported : Nat
  nonReported : Nat
  pending : Nat
deriving DecidableEq, Repr

/-- Update the aggregate counters for one classified comment: a resolved
thread increments `reported` or `nonReported` depending on `hasRocket`;
an unresolved one increments `pending`. -/
def bumpStats (s : Stats) (isResolved hasRocket : Bool) : Stats :=
  if isResolved then
    (if hasRocket then { s with reported := s.reported + 1 }
     else { s with nonReported := s.nonReported + 1 })
  else { s with pending := s.pending + 1 }

/-- The full accumulator of the aggregation pass: rows, the participant
list, the aggregate counters and the warnings emitted. -/
structure Agg where
  rows : List Row
  commenters : List String
  stats : Stats
  warnings : List Warn

/-- Process one comment of a thread: run the reaction loop, append the
assembled row, and bump the aggregate counters. -/
def processComment (isResolved : Bool) (acc : Agg) (c : ThreadComment) : Agg :=
  let st := processCommentCore acc.commenters c
  { rows := acc.rows ++ [mkRow c isResolved st]
    commenters := st.commenters
    stats := bumpStats acc.stats isResolved st.hasRocket
    warnings := acc.warnings ++ st.warnings }

/-- Process one review thread: fold its comments with the thread's
resolution flag. -/
def processThread (acc : Agg) (t : Thread) : Agg :=
  t.comments.foldl (processComment t.isResolved) acc

/-- The empty accumulator at the start of an aggregation pass. -/
def emptyAgg : Agg :=
  { rows := [], commenters := [], stats := ⟨0, 0, 0⟩, warnings := [] }

/-- The whole aggregation pass of `getPRReviewCommentsWithReactions`
over the fetched review threads. -/
def aggregate (threads : List Thread) : Agg :=
  threads.foldl processThread emptyAgg

/-- The three-valued resolution status of a comment row, read off the
`Reported` cell exactly as the spec names it. -/
inductive Status where
  | approved
  | nonApproved
  | pending
deriving DecidableEq, Repr

/-- Resolution status of a row: `✅` is Approved, `❌` is NonApproved, an
absent `Reported` cell is Pending. -/
def rowStatus (r : Row) : Status :=
  match r.reported with
  | some s => if s = "✅" then Status.approved else Status.nonApproved
  | none => Status.pending

/-- A strong-approval (rocket) reaction is present among a comment's
reactions. -/
def hasStrongApproval (l : List Reaction) : Bool :=
  l.any (fun r => getEmoji r.content == "🚀")

/-- One iteration of the second pass of
`getPRReviewCommentsWithReactions`: for a comment not authored by `p`,
increment `p`'s total, and also `p`'s reacted count when `p` appears in
the comment's participation set. -/
def engagementStep (p : String) (acc : Nat × Nat) (row : Row) : Nat × Nat :=
  if row.proposer ≠ p then
    ((if row.reacted p then acc.1 + 1 else acc.1), acc.2 + 1)
  else acc

/-- The second pass of `getPRReviewCommentsWithReactions`: for participant
`p`, fold over the rows accumulating `(reacted, total)`. -/
def engagementCounts (rows : List Row) (p : String) : Nat × Nat :=
  rows.foldl (engagementStep p) (0, 0)

/-- JavaScript `Math.round` on a nonnegative rational: floor of `q + 1/2`
(halves round up). -/
def jsRound (q : ℚ) : ℤ := ⌊q + 1 / 2⌋

/-- `stats.total === 0 ? 100 : Math.round((stats.reacted / stats.total) * 100)`. -/
def percentage (reacted total : Nat) : Nat :=
  if total = 0 then 100
  else (jsRound ((reacted : ℚ) / (total : ℚ) * 100)).toNat

/-- A comment-row highlight color. -/
inductive Highlight where
  | green
  | red
deriving DecidableEq, Repr

/-- The row fill decided by `renderExcel`: the green fill is applied when
`thumbsUpCount + 1 >= (2/3) * commenters.length`, and then — by a second,
independent `if` — the red fill is applied (overwriting any green fill)
when `thumbsDownCount >= (2/3) * (commenters.length - 1)`. -/
def excelHighlight (up down n : Nat) : Option Highlight :=
  let afterGreen : Option Highlight :=
    if ((up : ℚ) + 1 ≥ 2 / 3 * (n : ℚ)) then some Highlight.green else none
  if ((down : ℚ) ≥ 2 / 3 * ((n : ℚ) - 1)) then some Highlight.red else afterGreen

/-- The row class decided by `renderPDF`: an `if / else if` chain, so the
green condition is tested first and wins when both hold. -/
def pdfHighlight (up down n : Nat) : Option Highlight :=
  if ((up : ℚ) + 1 ≥ 2 / 3 * (n : ℚ)) then some Highlight.green
  else if ((down : ℚ) ≥ 2 / 3 * ((n : ℚ) - 1)) then some Highlight.red
  else none

/-! ### Helper lemmas about the reaction loop -/

theorem mem_pushCommenter_self (l : List String) (u : String) :
    u ∈ pushCommenter l u := by
  unfold pushCommenter
  split_ifs with h
  · exact h
  · exact List.mem_append_right _ (List.mem_singleton.mpr rfl)

theorem mem_pushCommenter_of_mem (l : List String) (u v : String) (h : v ∈ l) :
    v ∈ pushCommenter l u := by
  unfold pushCommenter
  split_ifs
  · exact h
  · exact List.mem_append_left _ h

theorem reactionStep_commenters (url : String) (s : CState) (r : Reaction) :
    (reactionStep url s r).commenters = pushCommenter s.commenters r.user := by
  unfold reactionStep
  split_ifs <;> rfl

theorem reactionStep_hasRocket (url : String) (s : CState) (r : Reaction) :
    (reactionStep url s r).hasRocket
      = (s.hasRocket || (getEmoji r.content == "🚀")) := by
  unfold reactionStep
  split_ifs with h1 h2 h3 h4 <;> simp_all

theorem reactionStep_up (url : String) (s : CState) (r : Reaction) :
    (reactionStep url s r).thumbsUpCount
      = s.thumbsUpCount + (if getEmoji r.content == "👍" then 1 else 0) := by
  unfold reactionStep
  split_ifs with h1 h2 h3 h4 <;> simp_all

theorem reactionStep_down (url : String) (s : CState) (r : Reaction) :
    (reactionStep url s r).thumbsDownCount
      = s.thumbsDownCount + (if getEmoji r.content == "👎" then 1 else 0) := by
  unfold reactionStep
  split_ifs with h1 h2 h3 h4 <;> simp_all

theorem reactionStep_cells (url : String) (s : CState) (r : Reaction) (u : String) :
    (reactionStep url s r).cells u
      = if (u == r.user && isVote r) then some (getEmoji r.content) else s.cells u := by
  unfold reactionStep isVote
  split_ifs with h1 h2 h3 h4 <;> by_cases hu : u = r.user <;> simp_all

theorem reactionStep_reacted (url : String) (s : CState) (r : Reaction) (u : String) :
    (reactionStep url s r).reacted u
      = (s.reacted u || (u == r.user && isVote r)) := by
  unfold reactionStep isVote
  split_ifs with h1 h2 h3 h4 <;> by_cases hu : u = r.user <;> simp_all

theorem reactionStep_warnings (url : String) (s : CState) (r : Reaction) :
    (reactionStep url s r).warnings
      = s.warnings ++
          (if getEmoji r.content = "🚀" ∨ getEmoji r.content = "👍" ∨
              getEmoji r.content = "👎" ∨ getEmoji r.content = "👀"
           then [] else [⟨getEmoji r.content, r.user, url⟩]) := by
  unfold reactionStep
  split_ifs with h1 h2 h3 h4 <;> simp_all

/-- A fold preserves any invariant its step preserves (with membership of
the element in the folded list available to the step hypothesis). -/
theorem foldl_inv_mem {α β : Type} (l : List β) (f : α → β → α) (P : α → Prop)
    (hstep : ∀ a b, b ∈ l → P a → P (f a b)) :
    ∀ a, P a → P (l.foldl f a) := by
  induction l with
  | nil => intro a h; exact h
  | cons b l ih =>
      intro a h
      exact ih (fun x c hc hx => hstep x c (List.mem_cons_of_mem _ hc) hx) _
        (hstep a b (List.mem_cons_self _ _) h)

theorem hasRocket_foldl (url : String) (l : List Reaction) :
    ∀ s : CState,
      ((l.foldl (reactionStep url) s).hasRocket)
        = (s.hasRocket || l.any (fun r => getEmoji r.content == "🚀")) := by
  induction l with
  | nil => intro s; simp
  | cons a l ih =>
      intro s
      simp only [List.foldl_cons, ih, reactionStep_hasRocket, List.any_cons]
      rw [Bool.or_assoc]

theorem up_foldl (url : String) (l : List Reaction) :
    ∀ s : CState,
      ((l.foldl (reactionStep url) s).thumbsUpCount)
        = s.thumbsUpCount + l.countP (fun r => getEmoji r.content == "👍") := by
  induction l with
  | nil => intro s; simp
  | cons a l ih =>
      intro s
      simp only [List.foldl_cons, ih, reactionStep_up, List.countP_cons]
      omega

theorem down_foldl (url : String) (l : List Reaction) :
    ∀ s : CState,
      ((l.foldl (reactionStep url) s).thumbsDownCount)
        = s.thumbsDownCount + l.countP (fun r => getEmoji r.content == "👎") := by
  induction l with
  | nil => intro s; simp
  | cons a l ih =>
      intro s
      simp only [List.foldl_cons, ih, reactionStep_down, List.countP_cons]
      omega

theorem reacted_foldl (url : String) (u : String) (l : List Reaction) :
    ∀ s : CState,
      ((l.foldl (reactionStep url) s).reacted u)
        = (s.reacted u || l.any (fun r => u == r.user && isVote r)) := by
  induction l with
  | nil => intro s; simp
  | cons a l ih =>
      intro s
      simp only [List.foldl_cons, ih, reactionStep_reacted, List.any_cons]
      rw [Bool.or_assoc]

theorem cells_foldl (url : String) (u : String) (l : List Reaction) :
    ∀ s : CState,
      ((l.foldl (reactionStep url) s).cells u)
        = (match l.reverse.find? (fun r => u == r.user && isVote r) with
           | some rr => some (getEmoji rr.content)
           | none => s.cells u) := by
  induction l using List.reverseRecOn with
  | nil => intro s; simp
  | append_singleton l a ih =>
      intro s
      rw [List.foldl_append, List.foldl_cons, List.foldl_nil, List.reverse_append,
        List.reverse_singleton, List.singleton_append, reactionStep_cells]
      by_cases hp : (u == a.user && isVote a) = true
      · rw [if_pos hp]
        simp only [List.find?_cons, hp]
      · rw [if_neg hp, ih]
        simp only [List.find?_cons, Bool.eq_false_iff.mpr hp]

theorem mem_commenters_foldl (url : String) (l : List Reaction) (v : String) :
    ∀ s : CState, v ∈ s.commenters →
      v ∈ ((l.foldl (reactionStep url) s).commenters) := by
  intro s hs
  exact foldl_inv_mem l (reactionStep url) (fun x => v ∈ x.commenters)
    (fun x r _ hx => by
      show v ∈ (reactionStep url x r).commenters
      rw [reactionStep_commenters]
      exact mem_pushCommenter_of_mem _ _ _ hx) s hs

theorem reactor_mem_foldl (url : String) (l : List Reaction) (r : Reaction)
    (hr : r ∈ l) :
    ∀ s : CState, r.user ∈ ((l.foldl (reactionStep url) s).commenters) := by
  induction l with
  | nil => cases hr
  | cons a l ih =>
      intro s
      rcases List.mem_cons.mp hr with h | h
      · subst h
        rw [List.foldl_cons]
        exact mem_commenters_foldl url l r.user _
          (by rw [reactionStep_commenters]; exact mem_pushCommenter_self _ _)
      · exact ih h _

/-! ### Lemmas about one processed comment and about the second pass -/

theorem core_hasRocket (cs : List String) (c : ThreadComment) :
    (processCommentCore cs c).hasRocket = hasStrongApproval c.reactions := by
  unfold processCommentCore hasStrongApproval
  rw [hasRocket_foldl]
  simp [initState]

theorem core_up (cs : List String) (c : ThreadComment) :
    (processCommentCore cs c).thumbsUpCount
      = c.reactions.countP (fun r => getEmoji r.content == "👍") := by
  unfold processCommentCore
  rw [up_foldl]
  simp [initState]

theorem core_down (cs : List String) (c : ThreadComment) :
    (processCommentCore cs c).thumbsDownCount
      = c.reactions.countP (fun r => getEmoji r.content == "👎") := by
  unfold processCommentCore
  rw [down_foldl]
  simp [initState]

theorem core_reacted (cs : List String) (c : ThreadComment) (u : String) :
    (processCommentCore cs c).reacted u
      = c.reactions.any (fun r => u == r.user && isVote r) := by
  unfold processCommentCore
  rw [reacted_foldl]
  simp [initState]

theorem core_cells (cs : List String) (c : ThreadComment) (u : String) :
    (processCommentCore cs c).cells u
      = (match c.reactions.reverse.find? (fun r => u == r.user && isVote r) with
         | some rr => some (getEmoji rr.content)
         | none => if u = c.author then some "Proposer" else none) := by
  unfold processCommentCore
  rw [cells_foldl]
  rfl

theorem engagement_foldl (p : String) (rows : List Row) :
    ∀ a b : Nat,
      rows.foldl (engagementStep p) (a, b)
        = (a + rows.countP (fun row => row.proposer != p && row.reacted p),
           b + rows.countP (fun row => row.proposer != p)) := by
  induction rows with
  | nil => intro a b; simp
  | cons r rows ih =>
      intro a b
      rw [List.foldl_cons]
      by_cases hp : r.proposer = p
      · have h1 : (r.proposer != p) = false := by simp [hp]
        have hstep : engagementStep p (a, b) r = (a, b) := by
          simp [engagementStep, hp]
        rw [hstep, ih, List.countP_cons, List.countP_cons, h1]
        simp
      · have h1 : (r.proposer != p) = true := by simp [hp]
        by_cases hr : r.reacted p = true
        · have hstep : engagementStep p (a, b) r = (a + 1, b + 1) := by
            simp [engagementStep, hp, hr]
          rw [hstep, ih, List.countP_cons, List.countP_cons, h1, hr]
          simp [Prod.mk.injEq]
          all_goals omega
        · have hr2 : r.reacted p = false := by
            cases hb : r.reacted p
            · rfl
            · exact absurd hb hr
          have hstep : engagementStep p (a, b) r = (a, b + 1) := by
            simp [engagementStep, hp, hr2]
          rw [hstep, ih, List.countP_cons, List.countP_cons, h1, hr2]
          simp [Prod.mk.injEq]
          all_goals omega

theorem engagementCounts_eq (rows : List Row) (p : String) :
    engagementCounts rows p
      = (rows.countP (fun row => row.proposer != p && row.reacted p),
         rows.countP (fun row => row.proposer != p)) := by
  unfold engagementCounts
  rw [engagement_foldl]
  simp

/-! ### Claim theorems -/

/-- C7: with a 300-character budget, `truncateText` returns a body of
length at most 300 unchanged, and otherwise returns exactly the first 300
characters followed by the ellipsis marker. -/
theorem c7_truncation (text : List Char) :
    (text.length ≤ 300 → truncateText text 300 = text) ∧
    (300 < text.length →
      truncateText text 300 = text.take 300 ++ ellipsisMarker ∧
      (truncateText text 300).length = 303 ∧
      (truncateText text 300).take 300 = text.take 300 ∧
      (truncateText text 300).drop 300 = ellipsisMarker) := by
  constructor
  · intro h
    simp [truncateText, h]
  · intro h
    have hne : ¬ text.length ≤ 300 := by omega
    have htake : (text.take 300).length = 300 := by
      rw [List.length_take]
      omega
    refine ⟨by simp [truncateText, hne], ?_, ?_, ?_⟩
    · simp only [truncateText, if_neg hne, List.length_append, htake]
      rfl
    · simp only [truncateText, if_neg hne]
      exact List.take_left' htake
    · simp only [truncateText, if_neg hne]
      exact List.drop_left' htake

/-- C7 witness: a body of length 301 is cut to its first 300 characters
plus the three-character ellipsis marker. -/
theorem c7_truncation_witness :
    300 < (List.replicate 301 'a').length ∧
    (truncateText (List.replicate 301 'a') 300
        = (List.replicate 301 'a').take 300 ++ ellipsisMarker ∧
      (truncateText (List.replicate 301 'a') 300).length = 303 ∧
      (truncateText (List.replicate 301 'a') 300).take 300
        = (List.replicate 301 'a').take 300 ∧
      (truncateText (List.replicate 301 'a') 300).drop 300 = ellipsisMarker) :=
  ⟨by simp, (c7_truncation (List.replicate 301 'a')).2 (by simp)⟩

/-- C8: the emoji normalizer matches the raw kind case-insensitively
against the fixed table (equal uppercasings normalize equally, a kind whose
uppercasing is a table key maps to that key's glyph), and any kind whose
uppercasing is not a table key is returned unchanged. -/
theorem c8_normalizer (s u : String)
    (hu : ∀ kv ∈ emojiTable, jsToUpperCase u ≠ kv.1) :
    (∀ key glyph, (key, glyph) ∈ emojiTable →
        jsToUpperCase s = key → getEmoji s = glyph) ∧
    getEmoji u = u := by
  constructor
  · intro key glyph hmem heq
    fin_cases hmem <;> (unfold getEmoji; rw [heq]; rfl)
  · have h1 := hu ("THUMBS_UP", "👍") (by simp [emojiTable])
    have h2 := hu ("THUMBS_DOWN", "👎") (by simp [emojiTable])
    have h3 := hu ("LAUGH", "😄") (by simp [emojiTable])
    have h4 := hu ("HOORAY", "🎉") (by simp [emojiTable])
    have h5 := hu ("CONFUSED", "😕") (by simp [emojiTable])
    have h6 := hu ("HEART", "❤️") (by simp [emojiTable])
    have h7 := hu ("ROCKET", "🚀") (by simp [emojiTable])
    have h8 := hu ("EYES", "👀") (by simp [emojiTable])
    have b1 : (jsToUpperCase u == "THUMBS_UP") = false := beq_eq_false_iff_ne.mpr h1
    have b2 : (jsToUpperCase u == "THUMBS_DOWN") = false := beq_eq_false_iff_ne.mpr h2
    have b3 : (jsToUpperCase u == "LAUGH") = false := beq_eq_false_iff_ne.mpr h3
    have b4 : (jsToUpperCase u == "HOORAY") = false := beq_eq_false_iff_ne.mpr h4
    have b5 : (jsToUpperCase u == "CONFUSED") = false := beq_eq_false_iff_ne.mpr h5
    have b6 : (jsToUpperCase u == "HEART") = false := beq_eq_false_iff_ne.mpr h6
    have b7 : (jsToUpperCase u == "ROCKET") = false := beq_eq_false_iff_ne.mpr h7
    have b8 : (jsToUpperCase u == "EYES") = false := beq_eq_false_iff_ne.mpr h8
    simp [getEmoji, emojiTable, List.lookup, b1, b2, b3, b4, b5, b6, b7, b8]

/-- C8 witness: `"Rocket"` uppercases to the table key `"ROCKET"` and
normalizes to 🚀, while the unknown kind `"shipit"` passes through
unchanged. -/
theorem c8_normalizer_witness :
    (∀ kv ∈ emojiTable, jsToUpperCase "shipit" ≠ kv.1) ∧
    (getEmoji "Rocket" = "🚀" ∧ getEmoji "shipit" = "shipit") :=
  ⟨by decide, by
    have h := c8_normalizer "Rocket" "shipit" (by decide)
    exact ⟨h.1 "ROCKET" "🚀" (by decide) (by decide), h.2⟩⟩

/-- C1: a comment's resolution status is Approved exactly when its thread
is resolved and a strong-approval (rocket) reaction is present,
NonApproved when the thread is resolved without one, and Pending whenever
the thread is unresolved — regardless of the rocket; and the matching
aggregate counter is the one incremented for the comment. -/
theorem c1_resolution_status (acc : Agg) (res : Bool) (c : ThreadComment) :
    rowStatus (mkRow c res (processCommentCore acc.commenters c))
      = (if res then
           (if hasStrongApproval c.reactions then Status.approved
            else Status.nonApproved)
         else Status.pending) ∧
    (processComment res acc c).stats.reported
      = acc.stats.reported +
          (if res && hasStrongApproval c.reactions then 1 else 0) ∧
    (processComment res acc c).stats.nonReported
      = acc.stats.nonReported +
          (if res && !hasStrongApproval c.reactions then 1 else 0) ∧
    (processComment res acc c).stats.pending
      = acc.stats.pending + (if res then 0 else 1) := by
  have hrocket := core_hasRocket acc.commenters c
  refine ⟨?_, ?_, ?_, ?_⟩ <;>
    simp only [processComment, rowStatus, mkRow, bumpStats, hrocket] <;>
    cases res <;> cases hh : hasStrongApproval c.reactions <;> simp [hrocket, hh]

/-- C2: after the aggregation pass, the three aggregate counters sum to
the number of comment rows produced, and each processed comment bumps the
counter total by exactly one. -/
theorem c2_counter_sum (threads : List Thread) :
    (aggregate threads).stats.reported + (aggregate threads).stats.nonReported +
        (aggregate threads).stats.pending
      = (aggregate threads).rows.length ∧
    (∀ (res : Bool) (acc : Agg) (c : ThreadComment),
      (processComment res acc c).stats.reported +
          (processComment res acc c).stats.nonReported +
          (processComment res acc c).stats.pending
        = acc.stats.reported + acc.stats.nonReported + acc.stats.pending + 1) := by
  have hstep : ∀ (res : Bool) (acc : Agg) (c : ThreadComment),
      (processComment res acc c).stats.reported +
          (processComment res acc c).stats.nonReported +
          (processComment res acc c).stats.pending
        = acc.stats.reported + acc.stats.nonReported + acc.stats.pending + 1 := by
    intro res acc c
    simp only [processComment, bumpStats]
    cases res <;> cases (processCommentCore acc.commenters c).hasRocket <;>
      simp <;> omega
  refine ⟨?_, hstep⟩
  have hrows : ∀ (res : Bool) (acc : Agg) (c : ThreadComment),
      (processComment res acc c).rows.length = acc.rows.length + 1 := by
    intro res acc c
    simp [processComment]
  have hmain : ∀ acc : Agg,
      acc.stats.reported + acc.stats.nonReported + acc.stats.pending
          = acc.rows.length →
      (threads.foldl processThread acc).stats.reported +
          (threads.foldl processThread acc).stats.nonReported +
          (threads.foldl processThread acc).stats.pending
        = (threads.foldl processThread acc).rows.length := by
    intro acc hacc
    refine foldl_inv_mem threads processThread
      (fun a => a.stats.reported + a.stats.nonReported + a.stats.pending
        = a.rows.length) ?_ acc hacc
    intro a t _ ha
    show (t.comments.foldl (processComment t.isResolved) a).stats.reported + _ + _ = _
    refine foldl_inv_mem t.comments (processComment t.isResolved)
      (fun x => x.stats.reported + x.stats.nonReported + x.stats.pending
        = x.rows.length) ?_ a ha
    intro x c _ hx
    rw [hstep, hrows, hx]
  exact hmain emptyAgg (by simp [emptyAgg])

/-- C4 counterexample: with 2 participants, 1 approval and 1 disapproval,
both threshold conditions hold, yet the Excel renderer's highlight is Red,
not Green — the red fill is assigned after the green fill and overwrites
it. -/
theorem c4_counterexample :
    ((1 : ℚ) + 1 ≥ 2 / 3 * (2 : ℚ)) ∧
    ((1 : ℚ) ≥ 2 / 3 * ((2 : ℚ) - 1)) ∧
    excelHighlight 1 1 2 = some Highlight.red ∧
    excelHighlight 1 1 2 ≠ some Highlight.green := by
  have hx : excelHighlight 1 1 2 = some Highlight.red := by
    rw [excelHighlight]
    norm_num
  refine ⟨by norm_num, by norm_num, hx, by rw [hx]; decide⟩

/-- C4 amended: the Green threshold is
`approvalCount + 1 >= (2/3) * participantCount` and the Red threshold is
`disapprovalCount >= (2/3) * (participantCount - 1)`; in the PDF renderer
Green takes precedence when both hold, but in the Excel renderer the red
fill is applied by a second independent branch after the green fill, so
Red takes precedence there. -/
theorem c4_highlight (up down n : Nat) :
    (((up : ℚ) + 1 ≥ 2 / 3 * (n : ℚ)) →
      pdfHighlight up down n = some Highlight.green) ∧
    (¬((up : ℚ) + 1 ≥ 2 / 3 * (n : ℚ)) →
      ((down : ℚ) ≥ 2 / 3 * ((n : ℚ) - 1)) →
      pdfHighlight up down n = some Highlight.red) ∧
    (¬((up : ℚ) + 1 ≥ 2 / 3 * (n : ℚ)) →
      ¬((down : ℚ) ≥ 2 / 3 * ((n : ℚ) - 1)) →
      pdfHighlight up down n = none) ∧
    (((down : ℚ) ≥ 2 / 3 * ((n : ℚ) - 1)) →
      excelHighlight up down n = some Highlight.red) ∧
    (((up : ℚ) + 1 ≥ 2 / 3 * (n : ℚ)) →
      ¬((down : ℚ) ≥ 2 / 3 * ((n : ℚ) - 1)) →
      excelHighlight up down n = some Highlight.green) ∧
    (¬((up : ℚ) + 1 ≥ 2 / 3 * (n : ℚ)) →
      ¬((down : ℚ) ≥ 2 / 3 * ((n : ℚ) - 1)) →
      excelHighlight up down n = none) := by
  unfold pdfHighlight excelHighlight
  refine ⟨?_, ?_, ?_, ?_, ?_, ?_⟩ <;> intro h1 <;> try intro h2
  all_goals split_ifs <;> first | rfl | (exfalso; tauto)

/-- C4 witness: with 3 participants, approval count 2 satisfies the Green
threshold (PDF row is green) and disapproval count 2 satisfies the Red
threshold (Excel row is red). -/
theorem c4_highlight_witness :
    pdfHighlight 2 2 3 = some Highlight.green ∧
    excelHighlight 2 2 3 = some Highlight.red :=
  ⟨(c4_highlight 2 2 3).1 (by norm_num),
   (c4_highlight 2 2 3).2.2.2.1 (by norm_num)⟩

/-- C5 counterexample: an acknowledgement (👀) reaction by `"b"` does NOT
put `"b"` in the comment's participation set — `row.reactions` stays
empty, so the reaction does not count toward `"b"`'s engagement
reacted-count (0 reacted out of 1 eligible). -/
theorem c5_counterexample :
    getEmoji "EYES" = "👀" ∧
    (processCommentCore [] ⟨[], "u", "a", [⟨"EYES", "b"⟩]⟩).reacted "b" = false ∧
    engagementCounts
        (aggregate [⟨true, [⟨[], "u", "a", [⟨"EYES", "b"⟩]⟩]⟩]).rows "b"
      = (0, 1) := by
  refine ⟨by decide, by decide, by decide⟩

/-- C5 amended: a reaction normalizing to the acknowledgement glyph (👀)
registers the reactor in the global participant list but is otherwise
ignored: it is not recorded in the comment's participation set (so it does
not count toward the engagement reacted-count), approval and disapproval
counts are unchanged, and no glyph cell is populated. -/
theorem c5_eyes_ignored (url : String) (s : CState) (r : Reaction)
    (h : getEmoji r.content = "👀") :
    (reactionStep url s r).commenters = pushCommenter s.commenters r.user ∧
    r.user ∈ (reactionStep url s r).commenters ∧
    (reactionStep url s r).cells = s.cells ∧
    (reactionStep url s r).reacted = s.reacted ∧
    (reactionStep url s r).thumbsUpCount = s.thumbsUpCount ∧
    (reactionStep url s r).thumbsDownCount = s.thumbsDownCount ∧
    (reactionStep url s r).hasRocket = s.hasRocket ∧
    (reactionStep url s r).warnings = s.warnings := by
  have hstep : reactionStep url s r
      = { s with commenters := pushCommenter s.commenters r.user } := by
    unfold reactionStep
    rw [h]
    rw [if_neg (by decide : ¬("👀" : String) = "🚀"),
      if_neg (by decide : ¬("👀" : String) = "👍"),
      if_neg (by decide : ¬("👀" : String) = "👎"), if_pos rfl]
  rw [hstep]
  exact ⟨rfl, mem_pushCommenter_self _ _, rfl, rfl, rfl, rfl, rfl, rfl⟩

/-- C5 amended witness: the 👀 reaction from `"b"` leaves the initial row
state unchanged apart from registering `"b"`. -/
theorem c5_eyes_ignored_witness :
    getEmoji "EYES" = "👀" ∧
    ((reactionStep "u" (initState [] "a") ⟨"EYES", "b"⟩).reacted
        = (initState [] "a").reacted ∧
      (reactionStep "u" (initState [] "a") ⟨"EYES", "b"⟩).cells
        = (initState [] "a").cells ∧
      "b" ∈ (reactionStep "u" (initState [] "a") ⟨"EYES", "b"⟩).commenters) :=
  ⟨by decide, by
    have h := c5_eyes_ignored "u" (initState [] "a") ⟨"EYES", "b"⟩ (by decide)
    exact ⟨h.2.2.2.1, h.2.2.1, h.2.1⟩⟩

/-- C6 counterexample: a reaction of kind `"HEART"` normalizes to ❤️,
which is none of the four handled glyphs; a warning with the glyph, the
reactor and the comment URL is emitted, but — contrary to the claim — the
glyph is NOT recorded in the reactor's per-participant cell, which stays
empty. -/
theorem c6_counterexample :
    getEmoji "HEART" = "❤️" ∧
    (processCommentCore [] ⟨[], "u", "a", [⟨"HEART", "b"⟩]⟩).warnings
      = [⟨"❤️", "b", "u"⟩] ∧
    (processCommentCore [] ⟨[], "u", "a", [⟨"HEART", "b"⟩]⟩).cells "b" = none := by
  refine ⟨by decide, by decide, by decide⟩

/-- C6 amended: a reaction whose normalized glyph is none of 🚀, 👍, 👎, 👀
is non-fatal: a warning carrying the glyph, the reacting user and the
comment URL is appended and processing continues, but the glyph value is
not recorded in any per-participant cell — the row state is otherwise
unchanged (the reactor is still registered in the participant list). -/
theorem c6_unknown_glyph (url : String) (s : CState) (r : Reaction)
    (h1 : getEmoji r.content ≠ "🚀") (h2 : getEmoji r.content ≠ "👍")
    (h3 : getEmoji r.content ≠ "👎") (h4 : getEmoji r.content ≠ "👀") :
    (reactionStep url s r).commenters = pushCommenter s.commenters r.user ∧
    (reactionStep url s r).warnings
      = s.warnings ++ [⟨getEmoji r.content, r.user, url⟩] ∧
    (reactionStep url s r).cells = s.cells ∧
    (reactionStep url s r).reacted = s.reacted ∧
    (reactionStep url s r).thumbsUpCount = s.thumbsUpCount ∧
    (reactionStep url s r).thumbsDownCount = s.thumbsDownCount ∧
    (reactionStep url s r).hasRocket = s.hasRocket := by
  have hstep : reactionStep url s r
      = { s with commenters := pushCommenter s.commenters r.user,
                 warnings := s.warnings ++ [⟨getEmoji r.content, r.user, url⟩] } := by
    unfold reactionStep
    rw [if_neg h1, if_neg h2, if_neg h3, if_neg h4]
  rw [hstep]
  exact ⟨rfl, rfl, rfl, rfl, rfl, rfl, rfl⟩

/-- C6 amended witness: the ❤️ reaction from `"b"` appends exactly one
warning with locating context and leaves the cells untouched. -/
theorem c6_unknown_glyph_witness :
    getEmoji "HEART" = "❤️" ∧
    ((reactionStep "u" (initState [] "a") ⟨"HEART", "b"⟩).warnings
        = (initState [] "a").warnings ++ [⟨getEmoji "HEART", "b", "u"⟩] ∧
      (reactionStep "u" (initState [] "a") ⟨"HEART", "b"⟩).cells
        = (initState [] "a").cells) :=
  ⟨by decide, by
    have h := c6_unknown_glyph "u" (initState [] "a") ⟨"HEART", "b"⟩
      (by decide) (by decide) (by decide) (by decide)
    exact ⟨h.2.1, h.2.2.1⟩⟩

/-- C9: the author's cell starts as `"Proposer"`; when the author's own
reactions contain a 👍 or 👎 vote, the final cell holds the glyph of the
last such vote instead (the marker is not preserved), the author is marked
in their own comment's participation set, and the vote is counted like any
other in the approval/disapproval tallies. -/
theorem c9_proposer_overwrite (cs : List String) (c : ThreadComment) :
    (c.reactions.reverse.find? (fun r => c.author == r.user && isVote r) = none →
      (processCommentCore cs c).cells c.author = some "Proposer") ∧
    (∀ rr,
      c.reactions.reverse.find? (fun r => c.author == r.user && isVote r)
          = some rr →
      ((processCommentCore cs c).cells c.author = some (getEmoji rr.content) ∧
       (getEmoji rr.content = "👍" ∨ getEmoji rr.content = "👎") ∧
       (processCommentCore cs c).reacted c.author = true ∧
       (processCommentCore cs c).thumbsUpCount
         = c.reactions.countP (fun r => getEmoji r.content == "👍") ∧
       (processCommentCore cs c).thumbsDownCount
         = c.reactions.countP (fun r => getEmoji r.content == "👎"))) := by
  constructor
  · intro hnone
    rw [core_cells, hnone]
    simp
  · intro rr hsome
    have hpred := List.find?_some hsome
    have hmem : rr ∈ c.reactions := List.mem_reverse.mp
      (List.mem_of_find?_eq_some hsome)
    have hvote : isVote rr = true := by
      have h := hpred
      simp only [Bool.and_eq_true] at h
      exact h.2
    refine ⟨?_, ?_, ?_, core_up _ _, core_down _ _⟩
    · rw [core_cells, hsome]
    · have hor := hvote
      unfold isVote at hor
      simp only [Bool.or_eq_true] at hor
      rcases hor with h | h
      · exact Or.inl (beq_iff_eq.mp h)
      · exact Or.inr (beq_iff_eq.mp h)
    · rw [core_reacted]
      exact List.any_eq_true.mpr ⟨rr, hmem, hpred⟩

/-- C9 witness: the author `"a"` thumbs-ups their own comment; the
`"Proposer"` marker is overwritten by 👍, the author is marked as having
reacted, and the approval count includes the vote. -/
theorem c9_proposer_overwrite_witness :
    ((⟨[], "u", "a", [⟨"THUMBS_UP", "a"⟩]⟩ : ThreadComment).reactions.reverse.find?
        (fun r => ("a" : String) == r.user && isVote r)
      = some ⟨"THUMBS_UP", "a"⟩) ∧
    ((processCommentCore [] ⟨[], "u", "a", [⟨"THUMBS_UP", "a"⟩]⟩).cells "a"
        = some (getEmoji "THUMBS_UP") ∧
      (getEmoji "THUMBS_UP" = "👍" ∨ getEmoji "THUMBS_UP" = "👎") ∧
      (processCommentCore [] ⟨[], "u", "a", [⟨"THUMBS_UP", "a"⟩]⟩).reacted "a"
        = true ∧
      (processCommentCore [] ⟨[], "u", "a", [⟨"THUMBS_UP", "a"⟩]⟩).thumbsUpCount
        = (⟨[], "u", "a", [⟨"THUMBS_UP", "a"⟩]⟩ : ThreadComment).reactions.countP
            (fun r => getEmoji r.content == "👍") ∧
      (processCommentCore [] ⟨[], "u", "a", [⟨"THUMBS_UP", "a"⟩]⟩).thumbsDownCount
        = (⟨[], "u", "a", [⟨"THUMBS_UP", "a"⟩]⟩ : ThreadComment).reactions.countP
            (fun r => getEmoji r.content == "👎")) :=
  ⟨by decide,
   (c9_proposer_overwrite [] ⟨[], "u", "a", [⟨"THUMBS_UP", "a"⟩]⟩).2
     ⟨"THUMBS_UP", "a"⟩ (by decide)⟩

/-! ### Participant registration and row invariants for the whole pass -/

theorem foldl_reach {α β : Type} (f : α → β → α) (Q : α → Prop) (l : List β)
    (b : β) (hb : b ∈ l) (hpres : ∀ a x, Q a → Q (f a x))
    (hstep : ∀ a, Q (f a b)) : ∀ a, Q (l.foldl f a) := by
  induction l with
  | nil => cases hb
  | cons x l ih =>
      intro a
      rcases List.mem_cons.mp hb with h | h
      · subst h
        exact foldl_inv_mem l f Q (fun a y _ => hpres a y) _ (hstep a)
      · exact ih h _

theorem processComment_mono (res : Bool) (acc : Agg) (c : ThreadComment)
    (v : String) (h : v ∈ acc.commenters) :
    v ∈ (processComment res acc c).commenters := by
  show v ∈ (processCommentCore acc.commenters c).commenters
  unfold processCommentCore
  exact mem_commenters_foldl _ _ _ _
    (mem_pushCommenter_of_mem _ _ _ h)

theorem processComment_reactor (res : Bool) (acc : Agg) (c : ThreadComment)
    (r : Reaction) (hr : r ∈ c.reactions) :
    r.user ∈ (processComment res acc c).commenters := by
  show r.user ∈ (processCommentCore acc.commenters c).commenters
  unfold processCommentCore
  exact reactor_mem_foldl _ _ _ hr _

theorem processThread_mono (acc : Agg) (t : Thread) (v : String)
    (h : v ∈ acc.commenters) : v ∈ (processThread acc t).commenters := by
  unfold processThread
  exact foldl_inv_mem t.comments (processComment t.isResolved)
    (fun a => v ∈ a.commenters)
    (fun a c _ ha => processComment_mono t.isResolved a c v ha) acc h

theorem aggregate_reactor_mem (threads : List Thread) (t : Thread)
    (ht : t ∈ threads) (c : ThreadComment) (hc : c ∈ t.comments)
    (r : Reaction) (hr : r ∈ c.reactions) :
    r.user ∈ (aggregate threads).commenters := by
  unfold aggregate
  refine foldl_reach processThread (fun a => r.user ∈ a.commenters)
    threads t ht (fun a x ha => processThread_mono a x r.user ha) ?_ emptyAgg
  intro a
  show r.user ∈ (t.comments.foldl (processComment t.isResolved) a).commenters
  refine foldl_reach (processComment t.isResolved)
    (fun x => r.user ∈ x.commenters) t.comments c hc
    (fun x y hx => processComment_mono t.isResolved x y r.user hx) ?_ a
  intro x
  exact processComment_reactor t.isResolved x c r hr

theorem comment_reacted_false (cs : List String) (c : ThreadComment)
    (p : String)
    (hc : ∀ r ∈ c.reactions, r.user = p → isVote r = false) :
    (processCommentCore cs c).reacted p = false := by
  rw [core_reacted]
  refine List.any_eq_false.mpr ?_
  intro r hr habs
  simp only [Bool.and_eq_true] at habs
  rcases habs with ⟨hbeq, hvote⟩
  have : r.user = p := (beq_iff_eq.mp hbeq).symm
  rw [hc r hr this] at hvote
  cases hvote

theorem rows_invariant (threads : List Thread) (p : String)
    (hauthor : ∀ t ∈ threads, ∀ c ∈ t.comments, c.author ≠ p)
    (hvotes : ∀ t ∈ threads, ∀ c ∈ t.comments, ∀ r ∈ c.reactions,
      r.user = p → isVote r = false) :
    ∀ row ∈ (aggregate threads).rows,
      row.proposer ≠ p ∧ row.reacted p = false := by
  unfold aggregate
  refine foldl_inv_mem threads processThread
    (fun a => ∀ row ∈ a.rows, row.proposer ≠ p ∧ row.reacted p = false)
    ?_ emptyAgg (by simp [emptyAgg])
  intro a t ht ha
  show ∀ row ∈ (t.comments.foldl (processComment t.isResolved) a).rows, _
  refine foldl_inv_mem t.comments (processComment t.isResolved)
    (fun x => ∀ row ∈ x.rows, row.proposer ≠ p ∧ row.reacted p = false)
    ?_ a ha
  intro x c hc hx row hrow
  rcases List.mem_append.mp hrow with h | h
  · exact hx row h
  · have hrow2 : row = mkRow c t.isResolved (processCommentCore x.commenters c) :=
      List.mem_singleton.mp h
    subst hrow2
    constructor
    · exact hauthor t ht c hc
    · show (processCommentCore x.commenters c).reacted p = false
      exact comment_reacted_false x.commenters c p (hvotes t ht c hc)

/-- C3: for any participant in the participant set, the engagement totals
count exactly the comments not authored by them (eligible) and, among
those, the ones whose participation set contains them (reacted);
`reacted ≤ eligible`; the percentage is `Math.round(100 * reacted /
eligible)` when `eligible > 0` and `100` when `eligible = 0`, in
particular for a participant who authored every comment. -/
theorem c3_engagement (threads : List Thread) (p : String)
    (hp : p ∈ (aggregate threads).commenters) :
    (engagementCounts (aggregate threads).rows p).2
      = (aggregate threads).rows.countP (fun row => row.proposer != p) ∧
    (engagementCounts (aggregate threads).rows p).1
      = (aggregate threads).rows.countP
          (fun row => row.proposer != p && row.reacted p) ∧
    (engagementCounts (aggregate threads).rows p).1
      ≤ (engagementCounts (aggregate threads).rows p).2 ∧
    (0 < (engagementCounts (aggregate threads).rows p).2 →
      ((percentage (engagementCounts (aggregate threads).rows p).1
          (engagementCounts (aggregate threads).rows p).2 : ℤ)
        = jsRound (100 * ((engagementCounts (aggregate threads).rows p).1 : ℚ)
            / ((engagementCounts (aggregate threads).rows p).2 : ℚ)))) ∧
    ((engagementCounts (aggregate threads).rows p).2 = 0 →
      percentage (engagementCounts (aggregate threads).rows p).1
          (engagementCounts (aggregate threads).rows p).2 = 100) ∧
    ((∀ row ∈ (aggregate threads).rows, row.proposer = p) →
      (engagementCounts (aggregate threads).rows p).2 = 0 ∧
      percentage (engagementCounts (aggregate threads).rows p).1
          (engagementCounts (aggregate threads).rows p).2 = 100) := by
  have hc := engagementCounts_eq (aggregate threads).rows p
  have h2 : (engagementCounts (aggregate threads).rows p).2
      = (aggregate threads).rows.countP (fun row => row.proposer != p) := by
    rw [hc]
  have h1 : (engagementCounts (aggregate threads).rows p).1
      = (aggregate threads).rows.countP
          (fun row => row.proposer != p && row.reacted p) := by
    rw [hc]
  have hle : (engagementCounts (aggregate threads).rows p).1
      ≤ (engagementCounts (aggregate threads).rows p).2 := by
    rw [h1, h2]
    refine List.countP_mono_left ?_
    intro row _ hrow
    simp only [Bool.and_eq_true] at hrow
    exact hrow.1
  refine ⟨h2, h1, hle, ?_, ?_, ?_⟩
  · intro hpos
    have hne : (engagementCounts (aggregate threads).rows p).2 ≠ 0 := by omega
    unfold percentage
    rw [if_neg hne]
    have hq : ((engagementCounts (aggregate threads).rows p).1 : ℚ)
          / ((engagementCounts (aggregate threads).rows p).2 : ℚ) * 100
        = 100 * ((engagementCounts (aggregate threads).rows p).1 : ℚ)
          / ((engagementCounts (aggregate threads).rows p).2 : ℚ) := by
      ring
    rw [hq]
    refine Int.toNat_of_nonneg ?_
    unfold jsRound
    have hnum : (0 : ℚ) ≤ 100 * ((engagementCounts (aggregate threads).rows p).1 : ℚ)
        / ((engagementCounts (aggregate threads).rows p).2 : ℚ) := by
      positivity
    have : (0 : ℚ) ≤ 100 * ((engagementCounts (aggregate threads).rows p).1 : ℚ)
        / ((engagementCounts (aggregate threads).rows p).2 : ℚ) + 1 / 2 := by
      linarith
    exact Int.floor_nonneg.mpr this
  · intro hz
    unfold percentage
    rw [if_pos hz]
  · intro hall
    have hz : (engagementCounts (aggregate threads).rows p).2 = 0 := by
      rw [h2]
      refine List.countP_eq_zero.mpr ?_
      intro row hrow
      simp [hall row hrow]
    refine ⟨hz, ?_⟩
    unfold percentage
    rw [if_pos hz]

/-- C3 witness: with one comment by `"a"` thumbs-upped by `"b"`, the
participant `"b"` is in the participant set and their reacted count does
not exceed their eligible count. -/
theorem c3_engagement_witness :
    "b" ∈ (aggregate [⟨true, [⟨[], "u", "a", [⟨"THUMBS_UP", "b"⟩]⟩]⟩]).commenters ∧
    (engagementCounts
        (aggregate [⟨true, [⟨[], "u", "a", [⟨"THUMBS_UP", "b"⟩]⟩]⟩]).rows "b").1
      ≤ (engagementCounts
          (aggregate [⟨true, [⟨[], "u", "a", [⟨"THUMBS_UP", "b"⟩]⟩]⟩]).rows "b").2 :=
  ⟨by decide,
   (c3_engagement [⟨true, [⟨[], "u", "a", [⟨"THUMBS_UP", "b"⟩]⟩]⟩] "b"
     (by decide)).2.2.1⟩

/-- C10: every reactor is registered in the participant set regardless of
reaction kind, but only 👍/👎 mark participation; a participant who
authored no comments and never voted 👍/👎 (only 🚀, 👀 or unrecognized
kinds) has reacted-count 0, eligible-count equal to the total comment
count, and — when at least one comment exists — an engagement percentage
of 0. -/
theorem c10_nonvoting_reactor (threads : List Thread) (p : String)
    (hauthor : ∀ t ∈ threads, ∀ c ∈ t.comments, c.author ≠ p)
    (hvotes : ∀ t ∈ threads, ∀ c ∈ t.comments, ∀ r ∈ c.reactions,
      r.user = p → isVote r = false)
    (hne : 0 < (aggregate threads).rows.length) :
    (∀ t ∈ threads, ∀ c ∈ t.comments, ∀ r ∈ c.reactions,
      r.user ∈ (aggregate threads).commenters) ∧
    engagementCounts (aggregate threads).rows p
      = (0, (aggregate threads).rows.length) ∧
    percentage (engagementCounts (aggregate threads).rows p).1
        (engagementCounts (aggregate threads).rows p).2 = 0 := by
  have hinv := rows_invariant threads p hauthor hvotes
  have hcounts : engagementCounts (aggregate threads).rows p
      = (0, (aggregate threads).rows.length) := by
    rw [engagementCounts_eq]
    have hzero : (aggregate threads).rows.countP
        (fun row => row.proposer != p && row.reacted p) = 0 := by
      refine List.countP_eq_zero.mpr ?_
      intro row hrow habs
      simp only [Bool.and_eq_true] at habs
      exact absurd habs.2 (by simp [(hinv row hrow).2])
    have hall : (aggregate threads).rows.countP
        (fun row => row.proposer != p) = (aggregate threads).rows.length := by
      refine List.countP_eq_length.mpr ?_
      intro row hrow
      simp [(hinv row hrow).1]
    rw [hzero, hall]
  refine ⟨?_, hcounts, ?_⟩
  · intro t ht c hc r hr
    exact aggregate_reactor_mem threads t ht c hc r hr
  · rw [hcounts]
    have hne2 : (aggregate threads).rows.length ≠ 0 := by omega
    unfold percentage
    rw [if_neg hne2]
    unfold jsRound
    rw [Nat.cast_zero, zero_div, zero_mul, zero_add]
    norm_num

/-- C10 witness: `"b"` only reacts with 🚀 to the single comment authored
by `"a"`: `"b"` is registered, has 0 reacted out of 1 eligible, and an
engagement percentage of 0. -/
theorem c10_nonvoting_reactor_witness :
    engagementCounts
        (aggregate [⟨true, [⟨[], "u", "a", [⟨"ROCKET", "b"⟩]⟩]⟩]).rows "b"
      = (0, (aggregate [⟨true, [⟨[], "u", "a", [⟨"ROCKET", "b"⟩]⟩]⟩]).rows.length) ∧
    percentage
        (engagementCounts
          (aggregate [⟨true, [⟨[], "u", "a", [⟨"ROCKET", "b"⟩]⟩]⟩]).rows "b").1
        (engagementCounts
          (aggregate [⟨true, [⟨[], "u", "a", [⟨"ROCKET", "b"⟩]⟩]⟩]).rows "b").2
      = 0 :=
  ⟨(c10_nonvoting_reactor [⟨true, [⟨[], "u", "a", [⟨"ROCKET", "b"⟩]⟩]⟩] "b"
      (by decide) (by decide) (by decide)).2.1,
   (c10_nonvoting_reactor [⟨true, [⟨[], "u", "a", [⟨"ROCKET", "b"⟩]⟩]⟩] "b"
      (by decide) (by decide) (by decide)).2.2⟩

end AuditReview
